import Mathlib

/-!
Verification of the multiplayer room coordinator of the `uno` repository.

The server keeps two in-memory maps: `rooms` (roomId to Room aggregate) and
`players` (socketId to the (playerId, roomId) binding of that connection).
We embed both as association lists with JS `Map` semantics (`set` replaces in
place, `get` returns the first hit, `delete` removes the key), and translate
the lifecycle functions `createRoom`, `joinRoom`, `leaveRoom`,
`getActiveRooms` together with the socket handlers for `join-room`,
`leave-room`, `toggle-ready`, `start-game` and `kick-player` directly from
the source.  Random identifiers (room code, uuid player id) and timestamps
are passed in as explicit parameters of the embedded functions.
-/

/-- Association list with the semantics of a JS `Map` keyed by strings. -/
abbrev AssocMap (α : Type) := List (String × α)

def mapGet {α : Type} (m : AssocMap α) (k : String) : Option α :=
  match m with
  | [] => none
  | kv :: rest => if kv.1 == k then some kv.2 else mapGet rest k

def mapSet {α : Type} (m : AssocMap α) (k : String) (v : α) : AssocMap α :=
  match m with
  | [] => [(k, v)]
  | kv :: rest => if kv.1 == k then (k, v) :: rest else kv :: mapSet rest k v

def mapDelete {α : Type} (m : AssocMap α) (k : String) : AssocMap α :=
  match m with
  | [] => []
  | kv :: rest => if kv.1 == k then mapDelete rest k else kv :: mapDelete rest k

def mapValues {α : Type} (m : AssocMap α) : List α :=
  m.map (fun kv => kv.2)

/-- Replace the first element satisfying `p` (JS mutates the object found by
`Array.prototype.find`). -/
def updateFirst {α : Type} (p : α → Bool) (f : α → α) : List α → List α
  | [] => []
  | x :: xs => if p x then f x :: xs else x :: updateFirst p f xs

/-- The opaque game-state handle installed by the `start-game` handler. -/
structure GameStateHandle where
  currentPlayerIndex : Nat
  direction : String
  phase : String
deriving Repr, DecidableEq

structure RoomPlayer where
  id : String
  name : String
  socketId : String
  isHost : Bool
  isReady : Bool
  joinedAt : Nat
deriving Repr, DecidableEq

structure Room where
  id : String
  name : String
  hostId : String
  hostName : String
  maxPlayers : Int
  currentPlayers : Int
  hasPassword : Bool
  password : Option String
  players : List RoomPlayer
  status : String
  createdAt : Nat
  gameInProgress : Bool
  gameState : Option GameStateHandle
deriving Repr, DecidableEq

/-- The value stored in the `players` map: `players.set(socketId, { playerId, roomId })`. -/
structure Binding where
  playerId : String
  roomId : String
deriving Repr, DecidableEq

structure ServerState where
  rooms : AssocMap Room
  players : AssocMap Binding
deriving Repr, DecidableEq

def ServerState.initial : ServerState := { rooms := [], players := [] }

/- Status literals and the Vietnamese error strings of the source, named so
that every later use refers to the constant. -/

def statusWaiting : String := "waiting"

def statusPlaying : String := "playing"

def directionClockwise : String := "clockwise"

def errRoomNotFound : String := "Phòng không tồn tại"

def errRoomFull : String := "Phòng đã đầy"

def errWrongPassword : String := "Mật khẩu không đúng"

def errGameInProgress : String := "Game đang diễn ra"

def errPlayerRoomMismatch : String := "Thông tin người chơi hoặc phòng không khớp"

def errHostNoReady : String := "Chủ phòng không cần sẵn sàng"

def errNotHostOrNoRoom : String := "Bạn không phải chủ phòng hoặc phòng không tồn tại"

def errKickMismatch : String := "Thông tin người chơi hoặc phòng không khớp."

def errKickNotHostOrNoRoom : String := "Bạn không phải chủ phòng hoặc phòng không tồn tại."

def errKickTarget : String := "Không thể kick chủ phòng hoặc người chơi không tồn tại."

def errNeedTwoPlayers : String := "Cần ít nhất 2 người chơi để bắt đầu game"

def errNotAllReady : String := "Chưa tất cả người chơi sẵn sàng"

/-- JS truthiness of `data.password` in `!!data.password`: `undefined` and
the empty string are falsy. -/
def passwordTruthy : Option String → Bool
  | none => false
  | some s => s != ""

structure CreateRoomData where
  name : String
  hostName : String
  maxPlayers : Int
  password : Option String
  socketId : String
deriving Repr, DecidableEq

/-- `createRoom(data)` of the source.  The generated room code, generated
player uuid and the current time are explicit parameters. -/
def createRoom (st : ServerState) (data : CreateRoomData) (roomId playerId : String)
    (now : Nat) : ServerState × Room × String :=
  let hostPlayer : RoomPlayer :=
    { id := playerId, name := data.hostName, socketId := data.socketId,
      isHost := true, isReady := true, joinedAt := now }
  let room : Room :=
    { id := roomId, name := data.name, hostId := playerId, hostName := data.hostName,
      maxPlayers := data.maxPlayers, currentPlayers := 1,
      hasPassword := passwordTruthy data.password, password := data.password,
      players := [hostPlayer], status := statusWaiting, createdAt := now,
      gameInProgress := false, gameState := none }
  ({ rooms := mapSet st.rooms roomId room,
     players := mapSet st.players data.socketId { playerId := playerId, roomId := roomId } },
   room, playerId)

structure JoinRoomData where
  roomId : String
  playerName : String
  password : Option String
  socketId : String
deriving Repr, DecidableEq

inductive JoinResult
  | failure (error : String)
  | success (room : Room) (playerId : String)
deriving Repr, DecidableEq

def JoinResult.isErr : JoinResult → Bool
  | .failure _ => true
  | .success _ _ => false

/-- `joinRoom(data)` of the source; the generated player uuid and time are
explicit parameters. -/
def joinRoom (st : ServerState) (data : JoinRoomData) (playerId : String) (now : Nat) :
    ServerState × JoinResult :=
  match mapGet st.rooms data.roomId with
  | none => (st, .failure errRoomNotFound)
  | some room =>
    if room.currentPlayers ≥ room.maxPlayers then
      (st, .failure errRoomFull)
    else if room.hasPassword && room.password != data.password then
      (st, .failure errWrongPassword)
    else if room.gameInProgress then
      (st, .failure errGameInProgress)
    else
      let newPlayer : RoomPlayer :=
        { id := playerId, name := data.playerName, socketId := data.socketId,
          isHost := false, isReady := false, joinedAt := now }
      let room2 : Room :=
        { room with players := room.players ++ [newPlayer],
                    currentPlayers := room.currentPlayers + 1 }
      ({ rooms := mapSet st.rooms data.roomId room2,
         players := mapSet st.players data.socketId
           { playerId := playerId, roomId := data.roomId } },
       .success room2 playerId)

inductive LeaveResult
  | noop
  | roomDeleted (roomId : String)
  | left (room : Room) (newHostId : Option String) (playerId : String)
deriving Repr, DecidableEq

/-- `leaveRoom(socketId)` of the source: returns `false` (here `.noop`) when
the socket is unbound or its room is missing; removes every player whose
`socketId` matches, decrements the counter, unbinds the connection; deletes
the room when it became empty; otherwise promotes `players[0]` when the
departed player was the host. -/
def leaveRoom (st : ServerState) (socketId : String) : ServerState × LeaveResult :=
  match mapGet st.players socketId with
  | none => (st, .noop)
  | some playerInfo =>
    match mapGet st.rooms playerInfo.roomId with
    | none => (st, .noop)
    | some room =>
      match room.players.filter (fun p => p.socketId != socketId) with
      | [] =>
        ({ rooms := mapDelete st.rooms playerInfo.roomId,
           players := mapDelete st.players socketId },
         .roomDeleted playerInfo.roomId)
      | newHost :: rest =>
        if room.hostId == playerInfo.playerId then
          let room2 : Room :=
            { room with players := { newHost with isHost := true } :: rest,
                        currentPlayers := room.currentPlayers - 1,
                        hostId := newHost.id, hostName := newHost.name }
          ({ rooms := mapSet st.rooms playerInfo.roomId room2,
             players := mapDelete st.players socketId },
           .left room2 (some newHost.id) playerInfo.playerId)
        else
          let room2 : Room :=
            { room with players := newHost :: rest,
                        currentPlayers := room.currentPlayers - 1 }
          ({ rooms := mapSet st.rooms playerInfo.roomId room2,
             players := mapDelete st.players socketId },
           .left room2 none playerInfo.playerId)

structure PublicRoomPlayer where
  id : String
  name : String
  isHost : Bool
  isReady : Bool
  joinedAt : Nat
deriving Repr, DecidableEq

/-- The shape produced by `getActiveRooms`: the `password` key is removed by
the destructuring and each player is stripped to its public fields.  Note the
type has no password field at all. -/
structure PublicRoom where
  id : String
  name : String
  hostId : String
  hostName : String
  maxPlayers : Int
  currentPlayers : Int
  hasPassword : Bool
  players : List PublicRoomPlayer
  status : String
  createdAt : Nat
  gameInProgress : Bool
  gameState : Option GameStateHandle
deriving Repr, DecidableEq

def toPublicRoom (room : Room) : PublicRoom :=
  { id := room.id, name := room.name, hostId := room.hostId, hostName := room.hostName,
    maxPlayers := room.maxPlayers, currentPlayers := room.currentPlayers,
    hasPassword := room.hasPassword,
    players := room.players.map (fun p =>
      { id := p.id, name := p.name, isHost := p.isHost, isReady := p.isReady,
        joinedAt := p.joinedAt }),
    status := room.status, createdAt := room.createdAt,
    gameInProgress := room.gameInProgress, gameState := room.gameState }

/-- `getActiveRooms()` of the source. -/
def getActiveRooms (rooms : AssocMap Room) : List PublicRoom :=
  ((mapValues rooms).filter
      (fun room => room.status == statusWaiting && !room.gameInProgress)).map
    toPublicRoom

/-- The tagged payloads carried on the `current-room` channel. -/
inductive RoomEvent
  | roomUpdated (room : Room)
  | playerLeft (room : Room) (leavingPlayerId : String) (newHostId : Option String)
  | gameStarted (room : Room)
  | playerKicked (room : Room) (kickedPlayerId : String)
  | kickedFromRoom
  | roomDeletedMsg (roomId : String) (message : String)
deriving Repr, DecidableEq

/-- One outbound emission together with its delivery scope. -/
inductive Emit
  | toRoom (roomId : String) (event : RoomEvent)
  | toSocket (socketId : String) (event : RoomEvent)
  | toRoomExceptSender (roomId : String) (senderSocketId : String) (event : RoomEvent)
  | broadcastRoomsUpdated (rooms : List PublicRoom)
deriving Repr, DecidableEq

/-- The `join-room` socket handler: on success it emits `ROOM_UPDATED` with
the updated room to the room and pushes the refreshed public list to all. -/
def handleJoinRoom (st : ServerState) (data : JoinRoomData) (playerId : String)
    (now : Nat) : ServerState × JoinResult × List Emit :=
  match joinRoom st data playerId now with
  | (st2, .success room pid) =>
    (st2, .success room pid,
      [Emit.toRoom room.id (.roomUpdated room),
       Emit.broadcastRoomsUpdated (getActiveRooms st2.rooms)])
  | (st2, .failure e) => (st2, .failure e, [])

/-- The `leave-room` socket handler: returns silently when the socket is
unbound; when the binding exists but the room is gone it only deletes the
binding; otherwise it runs `leaveRoom` and emits `PLAYER_LEFT` (unless the
room was deleted) followed by the refreshed public list. -/
def handleLeaveRoom (st : ServerState) (socketId : String) : ServerState × List Emit :=
  match mapGet st.players socketId with
  | none => (st, [])
  | some playerInfo =>
    match mapGet st.rooms playerInfo.roomId with
    | none => ({ st with players := mapDelete st.players socketId }, [])
    | some _ =>
      match leaveRoom st socketId with
      | (st2, .roomDeleted _) =>
        (st2, [Emit.broadcastRoomsUpdated (getActiveRooms st2.rooms)])
      | (st2, .left room newHostId pid) =>
        (st2, [Emit.toRoom playerInfo.roomId (.playerLeft room pid newHostId),
               Emit.broadcastRoomsUpdated (getActiveRooms st2.rooms)])
      | (st2, .noop) =>
        (st2, [Emit.broadcastRoomsUpdated (getActiveRooms st2.rooms)])

/-- The `disconnect` handler reuses `leaveRoom` exactly like `leave-room`
but without the pre-check that the room still exists. -/
def handleDisconnect (st : ServerState) (socketId : String) : ServerState × List Emit :=
  match mapGet st.players socketId with
  | none => (st, [])
  | some playerInfo =>
    match leaveRoom st socketId with
    | (st2, .roomDeleted _) =>
      (st2, [Emit.broadcastRoomsUpdated (getActiveRooms st2.rooms)])
    | (st2, .left room newHostId pid) =>
      (st2, [Emit.toRoom playerInfo.roomId (.playerLeft room pid newHostId),
             Emit.broadcastRoomsUpdated (getActiveRooms st2.rooms)])
    | (st2, .noop) =>
      (st2, [Emit.broadcastRoomsUpdated (getActiveRooms st2.rooms)])

inductive ToggleResult
  | failure (error : String)
  | success (isReady : Bool)
deriving Repr, DecidableEq

def ToggleResult.isErr : ToggleResult → Bool
  | .failure _ => true
  | .success _ => false

/-- The `toggle-ready` socket handler. -/
def handleToggleReady (st : ServerState) (socketId : String) (roomId : String) :
    ServerState × ToggleResult × List Emit :=
  match mapGet st.players socketId with
  | none => (st, .failure errPlayerRoomMismatch, [])
  | some playerInfo =>
    if playerInfo.roomId != roomId then
      (st, .failure errPlayerRoomMismatch, [])
    else
      match mapGet st.rooms playerInfo.roomId with
      | none => (st, .failure errRoomNotFound, [])
      | some room =>
        match room.players.find? (fun p => p.id == playerInfo.playerId) with
        | none => (st, .failure errHostNoReady, [])
        | some player =>
          if player.isHost then
            (st, .failure errHostNoReady, [])
          else
            let players2 := updateFirst (fun p => p.id == playerInfo.playerId)
              (fun p => { p with isReady := !p.isReady }) room.players
            let room2 : Room := { room with players := players2 }
            ({ st with rooms := mapSet st.rooms playerInfo.roomId room2 },
             .success (!player.isReady),
             [Emit.toRoom playerInfo.roomId (.roomUpdated room2)])

inductive StartResult
  | failure (error : String)
  | success
deriving Repr, DecidableEq

def StartResult.isErr : StartResult → Bool
  | .failure _ => true
  | .success => false

/-- The `start-game` socket handler. -/
def handleStartGame (st : ServerState) (socketId : String) (roomId : String) :
    ServerState × StartResult × List Emit :=
  match mapGet st.players socketId with
  | none => (st, .failure errPlayerRoomMismatch, [])
  | some playerInfo =>
    if playerInfo.roomId != roomId then
      (st, .failure errPlayerRoomMismatch, [])
    else
      match mapGet st.rooms playerInfo.roomId with
      | none => (st, .failure errNotHostOrNoRoom, [])
      | some room =>
        if room.hostId != playerInfo.playerId then
          (st, .failure errNotHostOrNoRoom, [])
        else if room.players.length < 2 then
          (st, .failure errNeedTwoPlayers, [])
        else if !((room.players.filter (fun p => !p.isHost)).all (fun p => p.isReady)) then
          (st, .failure errNotAllReady, [])
        else
          let room2 : Room :=
            { room with status := statusPlaying, gameInProgress := true,
                        gameState := some { currentPlayerIndex := 0,
                                            direction := directionClockwise,
                                            phase := statusPlaying } }
          let st2 : ServerState := { st with rooms := mapSet st.rooms playerInfo.roomId room2 }
          (st2, .success,
            [Emit.toRoom playerInfo.roomId (.gameStarted room2),
             Emit.broadcastRoomsUpdated (getActiveRooms st2.rooms)])

inductive KickResult
  | failure (error : String)
  | success
deriving Repr, DecidableEq

def KickResult.isErr : KickResult → Bool
  | .failure _ => true
  | .success => false

/-- The `kick-player` socket handler. -/
def handleKickPlayer (st : ServerState) (socketId : String)
    (roomId targetPlayerId : String) : ServerState × KickResult × List Emit :=
  match mapGet st.players socketId with
  | none => (st, .failure errKickMismatch, [])
  | some playerInfo =>
    if playerInfo.roomId != roomId then
      (st, .failure errKickMismatch, [])
    else
      match mapGet st.rooms playerInfo.roomId with
      | none => (st, .failure errKickNotHostOrNoRoom, [])
      | some room =>
        if room.hostId != playerInfo.playerId then
          (st, .failure errKickNotHostOrNoRoom, [])
        else
          match room.players.find? (fun p => p.id == targetPlayerId) with
          | none => (st, .failure errKickTarget, [])
          | some targetPlayer =>
            if targetPlayer.isHost then
              (st, .failure errKickTarget, [])
            else
              let room2 : Room :=
                { room with players := room.players.filter (fun p => p.id != targetPlayerId),
                            currentPlayers := room.currentPlayers - 1 }
              let st2 : ServerState :=
                { rooms := mapSet st.rooms playerInfo.roomId room2,
                  players := mapDelete st.players targetPlayer.socketId }
              (st2, .success,
                [Emit.toSocket targetPlayer.socketId .kickedFromRoom,
                 Emit.toRoomExceptSender playerInfo.roomId socketId
                   (.playerKicked room2 targetPlayerId),
                 Emit.broadcastRoomsUpdated (getActiveRooms st2.rooms)])

/-! ### Lemmas about the association-map primitives -/

theorem mapGet_mapSet_self {α : Type} (m : AssocMap α) (k : String) (v : α) :
    mapGet (mapSet m k v) k = some v := by
  induction m with
  | nil => simp [mapSet, mapGet]
  | cons kv rest ih =>
    by_cases h : (kv.1 == k) = true
    · simp [mapSet, mapGet, h]
    · simp only [mapSet, h, Bool.false_eq_true, if_false]
      simp only [mapGet, h, Bool.false_eq_true, if_false]
      exact ih

theorem mapGet_mapSet_ne {α : Type} (m : AssocMap α) (k k2 : String) (v : α)
    (h : k2 ≠ k) : mapGet (mapSet m k v) k2 = mapGet m k2 := by
  have hkk2 : (k == k2) = false := beq_eq_false_iff_ne.mpr (fun e => h e.symm)
  induction m with
  | nil => simp [mapSet, mapGet, hkk2]
  | cons kv rest ih =>
    by_cases hh : (kv.1 == k) = true
    · have hv2 : (kv.1 == k2) = false := by
        refine beq_eq_false_iff_ne.mpr ?_
        rw [beq_iff_eq.mp hh]
        exact fun e => h e.symm
      simp [mapSet, mapGet, hh, hkk2, hv2]
    · by_cases hv2 : (kv.1 == k2) = true
      · simp [mapSet, mapGet, hh, hv2]
      · simp only [mapSet, hh, Bool.false_eq_true, if_false]
        simp only [mapGet, hv2, Bool.false_eq_true, if_false]
        exact ih

theorem mapGet_mapDelete_self {α : Type} (m : AssocMap α) (k : String) :
    mapGet (mapDelete m k) k = none := by
  induction m with
  | nil => simp [mapDelete, mapGet]
  | cons kv rest ih =>
    by_cases h : (kv.1 == k) = true
    · simpa [mapDelete, h] using ih
    · simp only [mapDelete, h, Bool.false_eq_true, if_false]
      simp only [mapGet, h, Bool.false_eq_true, if_false]
      exact ih

theorem mapGet_mapDelete_ne {α : Type} (m : AssocMap α) (k k2 : String)
    (h : k2 ≠ k) : mapGet (mapDelete m k) k2 = mapGet m k2 := by
  induction m with
  | nil => simp [mapDelete]
  | cons kv rest ih =>
    by_cases hh : (kv.1 == k) = true
    · have hv2 : (kv.1 == k2) = false := by
        refine beq_eq_false_iff_ne.mpr ?_
        rw [beq_iff_eq.mp hh]
        exact fun e => h e.symm
      simp only [mapDelete, hh, if_true]
      simp only [mapGet, hv2, Bool.false_eq_true, if_false]
      exact ih
    · by_cases hv2 : (kv.1 == k2) = true
      · simp [mapDelete, mapGet, hh, hv2]
      · simp only [mapDelete, hh, Bool.false_eq_true, if_false]
        simp only [mapGet, hv2, Bool.false_eq_true, if_false]
        exact ih

theorem mapGet_mapDelete_eq_some {α : Type} {m : AssocMap α} {k k2 : String}
    {v : α} (h : mapGet (mapDelete m k) k2 = some v) :
    k2 ≠ k ∧ mapGet m k2 = some v := by
  by_cases he : k2 = k
  · rw [he, mapGet_mapDelete_self] at h
    exact absurd h (by simp)
  · exact ⟨he, by rw [← mapGet_mapDelete_ne m k k2 he]; exact h⟩

theorem mem_mapValues_mapDelete {α : Type} {m : AssocMap α} {k : String}
    {v : α} (h : v ∈ mapValues (mapDelete m k)) :
    ∃ k2, k2 ≠ k ∧ (k2, v) ∈ m := by
  induction m with
  | nil => simp [mapDelete, mapValues] at h
  | cons kv rest ih =>
    by_cases hh : (kv.1 == k) = true
    · simp only [mapDelete, hh, if_true] at h
      rcases ih h with ⟨k2, hk2, hmem⟩
      exact ⟨k2, hk2, List.mem_cons_of_mem _ hmem⟩
    · simp only [mapDelete, hh, Bool.false_eq_true, if_false, mapValues,
        List.map_cons, List.mem_cons] at h
      rcases h with h | h
      · refine ⟨kv.1, beq_eq_false_iff_ne.mp (Bool.eq_false_iff.mpr hh), ?_⟩
        rw [h]
        exact List.mem_cons_self _ _
      · rcases ih h with ⟨k2, hk2, hmem⟩
        exact ⟨k2, hk2, List.mem_cons_of_mem _ hmem⟩

/-! ### Concrete fixtures used by counterexamples and witnesses -/

def idP1 : String := "p1"

def idP2 : String := "p2"

def idP3 : String := "p3"

def idP9 : String := "p9"

def idS1 : String := "s1"

def idS2 : String := "s2"

def idS3 : String := "s3"

def idS9 : String := "s9"

def idR1 : String := "ROOM01"

def idR2 : String := "GAME01"

def nameA : String := "An"

def nameB : String := "Binh"

def nameC : String := "Chi"

def roomNameLobby : String := "Lobby"

def roomNameNew : String := "Taken"

def secretPw : String := "hunter2"

def ghostId : String := "nobody"

def pwHost : RoomPlayer :=
  { id := idP1, name := nameA, socketId := idS1, isHost := true, isReady := true,
    joinedAt := 0 }

def pwRoom : Room :=
  { id := idR1, name := roomNameLobby, hostId := idP1, hostName := nameA,
    maxPlayers := 4, currentPlayers := 1, hasPassword := true,
    password := some secretPw, players := [pwHost], status := statusWaiting,
    createdAt := 0, gameInProgress := false, gameState := none }

def pwState : ServerState :=
  { rooms := [(idR1, pwRoom)],
    players := [(idS1, { playerId := idP1, roomId := idR1 })] }

def pwJoinData : JoinRoomData :=
  { roomId := idR1, playerName := nameB, password := some secretPw, socketId := idS2 }

/-- The room password carried inside a `current-room` event payload, if any. -/
def roomEventPassword : RoomEvent → Option String
  | .roomUpdated room => room.password
  | .playerLeft room _ _ => room.password
  | .gameStarted room => room.password
  | .playerKicked room _ => room.password
  | .kickedFromRoom => none
  | .roomDeletedMsg _ _ => none

/-- The room password carried by an emission, if any. -/
def emitPassword : Emit → Option String
  | .toRoom _ e => roomEventPassword e
  | .toSocket _ e => roomEventPassword e
  | .toRoomExceptSender _ _ e => roomEventPassword e
  | .broadcastRoomsUpdated _ => none


/-! ### Claim C1 -/

/-- Claim C1 as stated is false: in `pwState` the room `ROOM01` has password
`hunter2`, and the `ROOM_UPDATED` room-scoped broadcast emitted by a
successful `join-room` carries the raw `Room` snapshot whose `password` field
still holds that secret, so the broadcast does not omit the password field. -/
theorem c1_counterexample :
    ((handleJoinRoom pwState pwJoinData idP2 1).2.2).any
      (fun e => emitPassword e == some secretPw) = true := by decide

/-- Claim C1 amended: only the room-list responses (`get-rooms` reply and the
`rooms-updated` push, both produced by `getActiveRooms`) omit the password:
their result is unchanged when every stored password is erased, and the
public view exposes exactly the derived `hasPassword` boolean.  (The
room-scoped broadcasts, by `c1_counterexample`, carry the raw room including
`password`.) -/
theorem c1_theorem :
    (∀ rooms : AssocMap Room,
      getActiveRooms (rooms.map (fun kv => (kv.1, { kv.2 with password := none }))) =
        getActiveRooms rooms) ∧
    (∀ room : Room, (toPublicRoom room).hasPassword = room.hasPassword) := by
  constructor
  · intro rooms
    induction rooms with
    | nil => rfl
    | cons kv rest ih =>
      simp only [getActiveRooms, mapValues, List.map_cons, List.map_map] at ih ⊢
      by_cases h : (kv.2.status == statusWaiting && !kv.2.gameInProgress) = true
      · rw [List.filter_cons_of_pos (by exact h), List.filter_cons_of_pos (by exact h)]
        simp only [List.map_cons]
        refine congrArg₂ _ rfl ?_
        exact ih
      · rw [List.filter_cons_of_neg (by simpa using h),
          List.filter_cons_of_neg (by simpa using h)]
        exact ih
  · intro room
    rfl

/-! ### Claim C9 -/

def c9Data : CreateRoomData :=
  { name := roomNameNew, hostName := nameB, maxPlayers := 4, password := none,
    socketId := idS2 }

/-- Claim C9 as stated is false: `createRoom` performs no freshness check.
In `pwState` a room with code `ROOM01` already exists; a create whose
generated code collides replaces that room in the store (`rooms.set`
overwrites), so a create can overwrite an existing room. -/
theorem c9_counterexample :
    mapGet (createRoom pwState c9Data idR1 idP2 5).1.rooms idR1 ≠ some pwRoom ∧
    (createRoom pwState c9Data idR1 idP2 5).1.rooms.length = 1 := by decide

/-- Claim C9 amended: the generated room code is used without any collision
check (a colliding create overwrites, see `c9_counterexample`); the created
room contains exactly one player, marked both host and ready, the new room is
stored under its code, and the creating connection is bound to
`(playerId, roomId)`. -/
theorem c9_theorem (st : ServerState) (data : CreateRoomData)
    (roomId playerId : String) (now : Nat) :
    (createRoom st data roomId playerId now).2.1.players =
      [{ id := playerId, name := data.hostName, socketId := data.socketId,
         isHost := true, isReady := true, joinedAt := now }] ∧
    mapGet (createRoom st data roomId playerId now).1.rooms roomId =
      some (createRoom st data roomId playerId now).2.1 ∧
    mapGet (createRoom st data roomId playerId now).1.players data.socketId =
      some { playerId := playerId, roomId := roomId } ∧
    (createRoom st data roomId playerId now).2.2 = playerId := by
  refine ⟨rfl, ?_, ?_, rfl⟩
  · exact mapGet_mapSet_self st.rooms roomId _
  · exact mapGet_mapSet_self st.players data.socketId _

/-! ### Claim C5 -/

/-- Claim C5: the `join-room` checks run in the order RoomNotFound, RoomFull,
WrongPassword, GameAlreadyInProgress, each failure leaving the state
untouched; on success exactly one new non-host, not-ready player is appended
to the end of `players`, `currentPlayers` is incremented by one, the joining
connection is bound to `(playerId, roomId)`, and the updated room is
returned. -/
theorem c5_theorem (st : ServerState) (data : JoinRoomData) (playerId : String)
    (now : Nat) :
    (mapGet st.rooms data.roomId = none →
      joinRoom st data playerId now = (st, .failure errRoomNotFound)) ∧
    (∀ room, mapGet st.rooms data.roomId = some room →
      (room.currentPlayers ≥ room.maxPlayers →
        joinRoom st data playerId now = (st, .failure errRoomFull)) ∧
      (room.currentPlayers < room.maxPlayers →
        (room.hasPassword && room.password != data.password) = true →
        joinRoom st data playerId now = (st, .failure errWrongPassword)) ∧
      (room.currentPlayers < room.maxPlayers →
        (room.hasPassword && room.password != data.password) = false →
        room.gameInProgress = true →
        joinRoom st data playerId now = (st, .failure errGameInProgress)) ∧
      (room.currentPlayers < room.maxPlayers →
        (room.hasPassword && room.password != data.password) = false →
        room.gameInProgress = false →
        joinRoom st data playerId now =
          ({ rooms := mapSet st.rooms data.roomId
               { room with
                   players := room.players ++
                     [{ id := playerId, name := data.playerName,
                        socketId := data.socketId, isHost := false,
                        isReady := false, joinedAt := now }],
                   currentPlayers := room.currentPlayers + 1 },
             players := mapSet st.players data.socketId
               { playerId := playerId, roomId := data.roomId } },
           .success
             { room with
                 players := room.players ++
                   [{ id := playerId, name := data.playerName,
                      socketId := data.socketId, isHost := false,
                      isReady := false, joinedAt := now }],
                 currentPlayers := room.currentPlayers + 1 }
             playerId))) := by
  constructor
  · intro h
    simp [joinRoom, h]
  · intro room hroom
    refine ⟨?_, ?_, ?_, ?_⟩
    · intro hfull
      simp [joinRoom, hroom, hfull]
    · intro hnotfull hpw
      rw [joinRoom]
      simp only [hroom]
      rw [if_neg (by exact not_le.mpr hnotfull), if_pos hpw]
    · intro hnotfull hpw hprog
      rw [joinRoom]
      simp only [hroom]
      rw [if_neg (by exact not_le.mpr hnotfull), if_neg (by simp [hpw]),
        if_pos hprog]
    · intro hnotfull hpw hprog
      rw [joinRoom]
      simp only [hroom]
      rw [if_neg (by exact not_le.mpr hnotfull), if_neg (by simp [hpw]),
        if_neg (by simp [hprog])]

def fullRoom : Room :=
  { id := idR1, name := roomNameLobby, hostId := idP1, hostName := nameA,
    maxPlayers := 1, currentPlayers := 1, hasPassword := false, password := none,
    players := [pwHost], status := statusWaiting, createdAt := 0,
    gameInProgress := false, gameState := none }

def fullState : ServerState :=
  { rooms := [(idR1, fullRoom)],
    players := [(idS1, { playerId := idP1, roomId := idR1 })] }

def fullJoinData : JoinRoomData :=
  { roomId := idR1, playerName := nameC, password := none, socketId := idS3 }

/-- Witness for `c5_theorem`: joining the concrete full room fails with the
room-full error and leaves the state untouched, and joining the
password-protected room with the right password succeeds. -/
theorem c5_witness :
    joinRoom fullState fullJoinData idP3 2 = (fullState, .failure errRoomFull) ∧
    (joinRoom pwState pwJoinData idP2 1).2.isErr = false :=
  ⟨(((c5_theorem fullState fullJoinData idP3 2).2 fullRoom (by decide)).1 (by decide)),
   by
    rw [(((c5_theorem pwState pwJoinData idP2 1).2 pwRoom (by decide)).2.2.2
      (by decide) (by decide) (by decide))]
    rfl⟩

/-! ### Claim C2 -/

def gHost : RoomPlayer :=
  { id := idP1, name := nameA, socketId := idS1, isHost := true, isReady := true,
    joinedAt := 0 }

def gGuest : RoomPlayer :=
  { id := idP2, name := nameB, socketId := idS2, isHost := false, isReady := true,
    joinedAt := 1 }

def gRoom : Room :=
  { id := idR2, name := roomNameLobby, hostId := idP1, hostName := nameA,
    maxPlayers := 4, currentPlayers := 2, hasPassword := false, password := none,
    players := [gHost, gGuest], status := statusPlaying, createdAt := 0,
    gameInProgress := true,
    gameState := some { currentPlayerIndex := 0, direction := directionClockwise,
                        phase := statusPlaying } }

def gState : ServerState :=
  { rooms := [(idR2, gRoom)],
    players := [(idS1, { playerId := idP1, roomId := idR2 }),
                (idS2, { playerId := idP2, roomId := idR2 })] }

def gJoinData : JoinRoomData :=
  { roomId := idR2, playerName := nameC, password := none, socketId := idS3 }

/-- Claim C2 as stated is false: in `gState` the room `GAME01` has
`gameInProgress = true`, yet the host's `kick-player` against the non-host
guest succeeds (and removes the guest), and the guest's `toggle-ready`
succeeds — neither handler checks `gameInProgress`. -/
theorem c2_counterexample :
    (mapGet gState.rooms idR2).map Room.gameInProgress = some true ∧
    (handleKickPlayer gState idS1 idR2 idP2).2.1 = KickResult.success ∧
    ((handleKickPlayer gState idS1 idR2 idP2).1 ≠ gState) ∧
    (handleToggleReady gState idS2 idR2).2.1 = ToggleResult.success false := by
  decide

theorem filter_socketId_ne {l : List RoomPlayer} {s : String} {nh : RoomPlayer}
    {rest : List RoomPlayer}
    (h : l.filter (fun p => p.socketId != s) = nh :: rest) :
    nh.socketId ≠ s ∧ ∀ p ∈ rest, p.socketId ≠ s := by
  have hmem : ∀ p ∈ nh :: rest, (p.socketId != s) = true := by
    rw [← h]
    intro p hp
    exact (List.mem_filter.mp hp).2
  exact ⟨bne_iff_ne.mp (hmem nh (List.mem_cons_self _ _)),
    fun p hp => bne_iff_ne.mp (hmem p (List.mem_cons_of_mem _ hp))⟩

/-- Claim C2 amended: while `gameInProgress` is true every `join-room`
against the room fails and leaves the state unchanged, and `leave-room` is
still permitted and takes effect (the leaver is unbound and no player with
its socket remains); but `kick-player` and `toggle-ready` are not gated on
`gameInProgress` and can succeed during a game (see `c2_counterexample`). -/
theorem c2_theorem (st : ServerState) (rid : String) (room : Room)
    (hroom : mapGet st.rooms rid = some room)
    (hprog : room.gameInProgress = true) :
    (∀ data playerId now, (data : JoinRoomData).roomId = rid →
      (joinRoom st data playerId now).1 = st ∧
      ((joinRoom st data playerId now).2).isErr = true) ∧
    (∀ s pid, mapGet st.players s = some { playerId := pid, roomId := rid } →
      mapGet (leaveRoom st s).1.players s = none ∧
      (leaveRoom st s).2 ≠ LeaveResult.noop ∧
      (∀ room2, mapGet (leaveRoom st s).1.rooms rid = some room2 →
        ∀ p ∈ room2.players, p.socketId ≠ s)) := by
  constructor
  · intro data playerId now hdata
    rw [joinRoom]
    simp only [hdata, hroom]
    by_cases hfull : room.currentPlayers ≥ room.maxPlayers
    · rw [if_pos hfull]
      exact ⟨rfl, rfl⟩
    · rw [if_neg hfull]
      by_cases hpw : (room.hasPassword && room.password != data.password) = true
      · rw [if_pos hpw]
        exact ⟨rfl, rfl⟩
      · rw [if_neg hpw, if_pos hprog]
        exact ⟨rfl, rfl⟩
  · intro s pid hbind
    rw [leaveRoom]
    simp only [hbind, hroom]
    rcases hfilter : room.players.filter (fun p => p.socketId != s) with _ | ⟨nh, rest⟩
    · simp only [hfilter]
      refine ⟨mapGet_mapDelete_self st.players s, by simp, ?_⟩
      intro room2 h2
      rw [mapGet_mapDelete_self] at h2
      exact absurd h2 (by simp)
    · simp only [hfilter]
      rcases filter_socketId_ne hfilter with ⟨hnh, hrest⟩
      by_cases hhost : (room.hostId == pid) = true
      · rw [if_pos hhost]
        refine ⟨mapGet_mapDelete_self st.players s, by simp, ?_⟩
        intro room2 h2
        rw [mapGet_mapSet_self] at h2
        rcases Option.some_inj.mp h2 with rfl
        intro p hp
        rcases List.mem_cons.mp hp with rfl | hp2
        · exact hnh
        · exact hrest p hp2
      · rw [if_neg (by simpa using hhost)]
        refine ⟨mapGet_mapDelete_self st.players s, by simp, ?_⟩
        intro room2 h2
        rw [mapGet_mapSet_self] at h2
        rcases Option.some_inj.mp h2 with rfl
        intro p hp
        rcases List.mem_cons.mp hp with rfl | hp2
        · exact hnh
        · exact hrest p hp2

/-- Witness for `c2_theorem` on the concrete in-progress room `GAME01`:
a join against it fails, and the guest's leave takes effect. -/
theorem c2_witness :
    ((joinRoom gState gJoinData idP3 2).2).isErr = true ∧
    (leaveRoom gState idS2).2 ≠ LeaveResult.noop :=
  ⟨((c2_theorem gState idR2 gRoom (by decide) (by decide)).1 gJoinData idP3 2 rfl).2,
   ((c2_theorem gState idR2 gRoom (by decide) (by decide)).2 idS2 idP2 (by decide)).2.1⟩

/-! ### Claim C4 -/

/-- Claim C4: when the bound player leaving room `rid` is the host and other
players remain, the head of the filtered players list — the earliest-joined
remaining player, since joins append — is promoted: its `isHost` becomes
true, `hostId`/`hostName` become its id and name, and the result carries
`some newHost.id`; when a non-host leaves, nothing is promoted and the result
carries `none`. -/
theorem c4_theorem (st : ServerState) (s pid rid : String) (room : Room)
    (newHost : RoomPlayer) (rest : List RoomPlayer)
    (hbind : mapGet st.players s = some { playerId := pid, roomId := rid })
    (hroom : mapGet st.rooms rid = some room)
    (hfilter : room.players.filter (fun p => p.socketId != s) = newHost :: rest) :
    (room.hostId = pid →
      leaveRoom st s =
        ({ rooms := mapSet st.rooms rid
             { room with players := { newHost with isHost := true } :: rest,
                         currentPlayers := room.currentPlayers - 1,
                         hostId := newHost.id, hostName := newHost.name },
           players := mapDelete st.players s },
         .left
           { room with players := { newHost with isHost := true } :: rest,
                       currentPlayers := room.currentPlayers - 1,
                       hostId := newHost.id, hostName := newHost.name }
           (some newHost.id) pid)) ∧
    (room.hostId ≠ pid →
      leaveRoom st s =
        ({ rooms := mapSet st.rooms rid
             { room with players := newHost :: rest,
                         currentPlayers := room.currentPlayers - 1 },
           players := mapDelete st.players s },
         .left
           { room with players := newHost :: rest,
                       currentPlayers := room.currentPlayers - 1 }
           none pid)) := by
  constructor
  · intro hhost
    rw [leaveRoom]
    simp only [hbind, hroom, hfilter]
    rw [if_pos (beq_iff_eq.mpr hhost)]
  · intro hhost
    rw [leaveRoom]
    simp only [hbind, hroom, hfilter]
    rw [if_neg (by simpa using hhost)]

def threeRoom : Room :=
  { id := idR1, name := roomNameLobby, hostId := idP1, hostName := nameA,
    maxPlayers := 4, currentPlayers := 3, hasPassword := false, password := none,
    players := [pwHost,
                { id := idP2, name := nameB, socketId := idS2, isHost := false,
                  isReady := false, joinedAt := 1 },
                { id := idP3, name := nameC, socketId := idS3, isHost := false,
                  isReady := false, joinedAt := 2 }],
    status := statusWaiting, createdAt := 0, gameInProgress := false,
    gameState := none }

def threeState : ServerState :=
  { rooms := [(idR1, threeRoom)],
    players := [(idS1, { playerId := idP1, roomId := idR1 }),
                (idS2, { playerId := idP2, roomId := idR1 }),
                (idS3, { playerId := idP3, roomId := idR1 })] }

/-- Witness for `c4_theorem`: in the concrete three-player room the host
`p1` leaves and the earliest-joined remaining player `p2` is promoted
(its `isHost` becomes true, `hostId`/`hostName` follow, result carries
`p2`), while a leave by the non-host `p3` promotes nobody. -/
theorem c4_witness :
    ((leaveRoom threeState idS1).2 =
      .left
        { threeRoom with
            players := [{ id := idP2, name := nameB, socketId := idS2,
                          isHost := true, isReady := false, joinedAt := 1 },
                        { id := idP3, name := nameC, socketId := idS3,
                          isHost := false, isReady := false, joinedAt := 2 }],
            currentPlayers := 2, hostId := idP2, hostName := nameB }
        (some idP2) idP1) ∧
    ((leaveRoom threeState idS3).2 =
      .left
        { threeRoom with
            players := [pwHost,
                        { id := idP2, name := nameB, socketId := idS2,
                          isHost := false, isReady := false, joinedAt := 1 }],
            currentPlayers := 2 }
        none idP3) := by
  constructor
  · rw [(c4_theorem threeState idS1 idP1 idR1 threeRoom
      { id := idP2, name := nameB, socketId := idS2, isHost := false,
        isReady := false, joinedAt := 1 }
      [{ id := idP3, name := nameC, socketId := idS3, isHost := false,
         isReady := false, joinedAt := 2 }]
      (by decide) (by decide) (by decide)).1 (by decide)]
    decide
  · rw [(c4_theorem threeState idS3 idP3 idR1 threeRoom pwHost
      [{ id := idP2, name := nameB, socketId := idS2, isHost := false,
         isReady := false, joinedAt := 1 }]
      (by decide) (by decide) (by decide)).2 (by decide)]
    decide

/-! ### Claim C6 -/

/-- The room as mutated by a successful `start-game`: status playing, game in
progress, and the initial game-state handle installed. -/
def startedRoom (room : Room) : Room :=
  { room with status := statusPlaying, gameInProgress := true,
              gameState := some { currentPlayerIndex := 0,
                                  direction := directionClockwise,
                                  phase := statusPlaying } }

/-- Claim C6: `start-game` fails unless the caller is bound to the named room
and is its host; fails with the not-enough-players error when the room has
fewer than 2 players; fails with the not-all-ready error when some non-host
player is not ready; otherwise it sets `status` to playing, `gameInProgress`
to true and installs a non-null initial game-state handle (`startedRoom`),
and the `GAME_STARTED` event sent to members carries that updated room. -/
theorem c6_theorem (st : ServerState) (s rid : String) :
    (mapGet st.players s = none →
      handleStartGame st s rid = (st, .failure errPlayerRoomMismatch, [])) ∧
    (∀ pid rid2, mapGet st.players s = some { playerId := pid, roomId := rid2 } →
      rid2 ≠ rid →
      handleStartGame st s rid = (st, .failure errPlayerRoomMismatch, [])) ∧
    (∀ pid, mapGet st.players s = some { playerId := pid, roomId := rid } →
      mapGet st.rooms rid = none →
      handleStartGame st s rid = (st, .failure errNotHostOrNoRoom, [])) ∧
    (∀ pid room, mapGet st.players s = some { playerId := pid, roomId := rid } →
      mapGet st.rooms rid = some room →
      (room.hostId ≠ pid →
        handleStartGame st s rid = (st, .failure errNotHostOrNoRoom, [])) ∧
      (room.hostId = pid → room.players.length < 2 →
        handleStartGame st s rid = (st, .failure errNeedTwoPlayers, [])) ∧
      (room.hostId = pid → ¬room.players.length < 2 →
        ((room.players.filter (fun p => !p.isHost)).all (fun p => p.isReady)) = false →
        handleStartGame st s rid = (st, .failure errNotAllReady, [])) ∧
      (room.hostId = pid → ¬room.players.length < 2 →
        ((room.players.filter (fun p => !p.isHost)).all (fun p => p.isReady)) = true →
        handleStartGame st s rid =
          ({ st with rooms := mapSet st.rooms rid (startedRoom room) },
           .success,
           [Emit.toRoom rid (.gameStarted (startedRoom room)),
            Emit.broadcastRoomsUpdated
              (getActiveRooms (mapSet st.rooms rid (startedRoom room)))]))) := by
  refine ⟨?_, ?_, ?_, ?_⟩
  · intro h
    rw [handleStartGame]
    simp only [h]
  · intro pid rid2 hbind hne
    rw [handleStartGame]
    simp only [hbind]
    rw [if_pos (bne_iff_ne.mpr hne)]
  · intro pid hbind hroom
    rw [handleStartGame]
    simp only [hbind, hroom]
    rw [if_neg (by simp)]
  · intro pid room hbind hroom
    refine ⟨?_, ?_, ?_, ?_⟩
    · intro hne
      rw [handleStartGame]
      simp only [hbind, hroom]
      rw [if_neg (by simp), if_pos (bne_iff_ne.mpr hne)]
    · intro hhost hlen
      rw [handleStartGame]
      simp only [hbind, hroom]
      rw [if_neg (by simp), if_neg (by simp [hhost]), if_pos hlen]
    · intro hhost hlen hall
      rw [handleStartGame]
      simp only [hbind, hroom]
      rw [if_neg (by simp), if_neg (by simp [hhost]), if_neg hlen,
        if_pos (by simp [hall])]
    · intro hhost hlen hall
      rw [handleStartGame]
      simp only [hbind, hroom]
      rw [if_neg (by simp), if_neg (by simp [hhost]), if_neg hlen,
        if_neg (by simp [hall])]
      rfl

def readyRoom : Room :=
  { id := idR1, name := roomNameLobby, hostId := idP1, hostName := nameA,
    maxPlayers := 4, currentPlayers := 2, hasPassword := false, password := none,
    players := [pwHost,
                { id := idP2, name := nameB, socketId := idS2, isHost := false,
                  isReady := true, joinedAt := 1 }],
    status := statusWaiting, createdAt := 0, gameInProgress := false,
    gameState := none }

def readyState : ServerState :=
  { rooms := [(idR1, readyRoom)],
    players := [(idS1, { playerId := idP1, roomId := idR1 }),
                (idS2, { playerId := idP2, roomId := idR1 })] }

/-- Witness for `c6_theorem`: the host of a 2-player all-ready room starts
the game; the stored room flips to playing with a non-null game state. -/
theorem c6_witness :
    (handleStartGame readyState idS1 idR1).2.1 = StartResult.success ∧
    (mapGet (handleStartGame readyState idS1 idR1).1.rooms idR1).map
      Room.gameInProgress = some true ∧
    (mapGet (handleStartGame readyState idS1 idR1).1.rooms idR1).map
      (fun r => r.gameState.isSome) = some true := by
  have h := ((c6_theorem readyState idS1 idR1).2.2.2 idP1 readyRoom
    (by decide) (by decide)).2.2.2 (by decide) (by decide) (by decide)
  rw [h]
  decide

/-! ### Claim C7 -/

/-- Claim C7: when the last remaining player of room `rid` leaves (every
player of the room carries the leaving socket, so the filter empties), the
room is deleted from the store: a later lookup misses, it appears in no
active-room listing (under the store's key/id coherence), and a subsequent
join against its id fails with the room-not-found error; and a `leave-room`
request from an unbound connection is a no-op returning the state unchanged
with no emissions. -/
theorem c7_theorem (st : ServerState) (s pid rid s2 : String) (room : Room)
    (hbind : mapGet st.players s = some { playerId := pid, roomId := rid })
    (hroom : mapGet st.rooms rid = some room)
    (hlast : room.players.filter (fun p => p.socketId != s) = [])
    (hids : ∀ kv ∈ st.rooms, (kv : String × Room).2.id = kv.1)
    (hunbound : mapGet st.players s2 = none) :
    (leaveRoom st s).2 = .roomDeleted rid ∧
    mapGet (leaveRoom st s).1.rooms rid = none ∧
    (∀ pr ∈ getActiveRooms (leaveRoom st s).1.rooms, pr.id ≠ rid) ∧
    (∀ data playerId now, (data : JoinRoomData).roomId = rid →
      joinRoom (leaveRoom st s).1 data playerId now =
        ((leaveRoom st s).1, .failure errRoomNotFound)) ∧
    handleLeaveRoom st s2 = (st, []) := by
  have hleave : leaveRoom st s =
      ({ rooms := mapDelete st.rooms rid, players := mapDelete st.players s },
       .roomDeleted rid) := by
    rw [leaveRoom]
    simp only [hbind, hroom, hlast]
  refine ⟨by rw [hleave], ?_, ?_, ?_, ?_⟩
  · rw [hleave]
    exact mapGet_mapDelete_self st.rooms rid
  · rw [hleave]
    intro pr hpr
    simp only [getActiveRooms, List.mem_map] at hpr
    rcases hpr with ⟨r, hrf, rfl⟩
    have hrv : r ∈ mapValues (mapDelete st.rooms rid) := List.mem_of_mem_filter hrf
    rcases mem_mapValues_mapDelete hrv with ⟨k2, hk2, hmem⟩
    have hid : r.id = k2 := hids (k2, r) hmem
    show r.id ≠ rid
    rw [hid]
    exact hk2
  · intro data playerId now hdata
    rw [hleave, joinRoom]
    simp only [hdata, mapGet_mapDelete_self]
  · rw [handleLeaveRoom]
    simp only [hunbound]

def lastState : ServerState :=
  { rooms := [(idR1, pwRoom)],
    players := [(idS1, { playerId := idP1, roomId := idR1 })] }

/-- Witness for `c7_theorem`: the lone player of `ROOM01` leaves; the room is
deleted, listed nowhere, a re-join fails, and an unbound socket's leave is a
no-op. -/
theorem c7_witness :
    (leaveRoom lastState idS1).2 = .roomDeleted idR1 ∧
    mapGet (leaveRoom lastState idS1).1.rooms idR1 = none ∧
    joinRoom (leaveRoom lastState idS1).1 pwJoinData idP2 3 =
      ((leaveRoom lastState idS1).1, .failure errRoomNotFound) ∧
    handleLeaveRoom lastState idS9 = (lastState, []) := by
  have h := c7_theorem lastState idS1 idP1 idR1 idS9 pwRoom
    (by decide) (by decide) (by decide)
    (by
      intro kv hkv
      simp only [lastState, List.mem_singleton] at hkv
      rw [hkv]
      decide)
    (by decide)
  exact ⟨h.1, h.2.1, h.2.2.2.1 pwJoinData idP2 3 rfl, h.2.2.2.2⟩

/-! ### Claim C8 -/

/-- Claim C8 as stated is false in one point: the code returns the *same*
error for a nonexistent target and for the host target, so `CannotKickHost`
is not a distinct error from `TargetNotFound`.  In `readyState` the host
kicks a non-member id and then kicks the host id: both fail with the
identical combined error value. -/
theorem c8_counterexample :
    (handleKickPlayer readyState idS1 idR1 ghostId).2.1 =
      KickResult.failure errKickTarget ∧
    (handleKickPlayer readyState idS1 idR1 idP1).2.1 =
      KickResult.failure errKickTarget ∧
    (handleKickPlayer readyState idS1 idR1 ghostId).2.1 =
      (handleKickPlayer readyState idS1 idR1 idP1).2.1 := by decide

/-- Claim C8 amended: `kick-player` fails unless the requester is bound to
the named room and is its host; a missing target and a host target both fail
with the *same* combined error (not distinct errors), so kicking the host is
always rejected; on success the target is removed from `players`,
`currentPlayers` is decremented, the target's binding is deleted from the
registry, and the target's socket alone receives the `KICKED_FROM_ROOM`
event, distinct from the group's `PLAYER_KICKED` update. -/
theorem c8_theorem (st : ServerState) (s rid target : String) :
    (mapGet st.players s = none →
      handleKickPlayer st s rid target = (st, .failure errKickMismatch, [])) ∧
    (∀ pid rid2, mapGet st.players s = some { playerId := pid, roomId := rid2 } →
      rid2 ≠ rid →
      handleKickPlayer st s rid target = (st, .failure errKickMismatch, [])) ∧
    (∀ pid, mapGet st.players s = some { playerId := pid, roomId := rid } →
      mapGet st.rooms rid = none →
      handleKickPlayer st s rid target = (st, .failure errKickNotHostOrNoRoom, [])) ∧
    (∀ pid room, mapGet st.players s = some { playerId := pid, roomId := rid } →
      mapGet st.rooms rid = some room →
      (room.hostId ≠ pid →
        handleKickPlayer st s rid target =
          (st, .failure errKickNotHostOrNoRoom, [])) ∧
      (room.hostId = pid →
        room.players.find? (fun p => p.id == target) = none →
        handleKickPlayer st s rid target = (st, .failure errKickTarget, [])) ∧
      (∀ t, room.hostId = pid →
        room.players.find? (fun p => p.id == target) = some t →
        t.isHost = true →
        handleKickPlayer st s rid target = (st, .failure errKickTarget, [])) ∧
      (∀ t, room.hostId = pid →
        room.players.find? (fun p => p.id == target) = some t →
        t.isHost = false →
        handleKickPlayer st s rid target =
          ({ rooms := mapSet st.rooms rid
               { room with players := room.players.filter (fun p => p.id != target),
                           currentPlayers := room.currentPlayers - 1 },
             players := mapDelete st.players t.socketId },
           .success,
           [Emit.toSocket t.socketId .kickedFromRoom,
            Emit.toRoomExceptSender rid s (.playerKicked
              { room with players := room.players.filter (fun p => p.id != target),
                          currentPlayers := room.currentPlayers - 1 } target),
            Emit.broadcastRoomsUpdated (getActiveRooms (mapSet st.rooms rid
              { room with players := room.players.filter (fun p => p.id != target),
                          currentPlayers := room.currentPlayers - 1 }))]))) := by
  refine ⟨?_, ?_, ?_, ?_⟩
  · intro h
    rw [handleKickPlayer]
    simp only [h]
  · intro pid rid2 hbind hne
    rw [handleKickPlayer]
    simp only [hbind]
    rw [if_pos (bne_iff_ne.mpr hne)]
  · intro pid hbind hroom
    rw [handleKickPlayer]
    simp only [hbind, hroom]
    rw [if_neg (by simp)]
  · intro pid room hbind hroom
    refine ⟨?_, ?_, ?_, ?_⟩
    · intro hne
      rw [handleKickPlayer]
      simp only [hbind, hroom]
      rw [if_neg (by simp), if_pos (bne_iff_ne.mpr hne)]
    · intro hhost hfind
      rw [handleKickPlayer]
      simp only [hbind, hroom, hfind]
      rw [if_neg (by simp), if_neg (by simp [hhost])]
    · intro t hhost hfind hth
      rw [handleKickPlayer]
      simp only [hbind, hroom, hfind]
      rw [if_neg (by simp), if_neg (by simp [hhost]), if_pos hth]
    · intro t hhost hfind hth
      rw [handleKickPlayer]
      simp only [hbind, hroom, hfind]
      rw [if_neg (by simp), if_neg (by simp [hhost]), if_neg (by simp [hth])]

/-- Witness for `c8_theorem`: the host of `readyState` kicks the guest `p2`;
the guest is removed, unbound, and its socket alone receives the kicked
event. -/
theorem c8_witness :
    (handleKickPlayer readyState idS1 idR1 idP2).2.1 = KickResult.success ∧
    (mapGet (handleKickPlayer readyState idS1 idR1 idP2).1.rooms idR1).map
      (fun r => r.players.length) = some 1 ∧
    mapGet (handleKickPlayer readyState idS1 idR1 idP2).1.players idS2 = none ∧
    (handleKickPlayer readyState idS1 idR1 idP2).2.2.head? =
      some (Emit.toSocket idS2 .kickedFromRoom) := by
  have h := ((c8_theorem readyState idS1 idR1 idP2).2.2.2 idP1 readyRoom
    (by decide) (by decide)).2.2.2
    { id := idP2, name := nameB, socketId := idS2, isHost := false,
      isReady := true, joinedAt := 1 }
    (by decide) (by decide) (by decide)
  rw [h]
  decide

/-! ### Claim C10 -/

theorem joinRoom_err_unchanged (st : ServerState) (data : JoinRoomData)
    (playerId : String) (now : Nat) :
    ((joinRoom st data playerId now).2).isErr = true →
      (joinRoom st data playerId now).1 = st := by
  rw [joinRoom]
  split
  · intro _
    rfl
  · split
    · intro _
      rfl
    · split
      · intro _
        rfl
      · split
        · intro _
          rfl
        · intro h
          simp [JoinResult.isErr] at h

theorem handleToggleReady_err_unchanged (st : ServerState) (s rid : String) :
    ((handleToggleReady st s rid).2.1).isErr = true →
      (handleToggleReady st s rid).1 = st := by
  rw [handleToggleReady]
  split
  · intro _
    rfl
  · split
    · intro _
      rfl
    · split
      · intro _
        rfl
      · split
        · intro _
          rfl
        · split
          · intro _
            rfl
          · intro h
            simp [ToggleResult.isErr] at h

theorem handleStartGame_err_unchanged (st : ServerState) (s rid : String) :
    ((handleStartGame st s rid).2.1).isErr = true →
      (handleStartGame st s rid).1 = st := by
  rw [handleStartGame]
  split
  · intro _
    rfl
  · split
    · intro _
      rfl
    · split
      · intro _
        rfl
      · split
        · intro _
          rfl
        · split
          · intro _
            rfl
          · split
            · intro _
              rfl
            · intro h
              simp [StartResult.isErr] at h

theorem handleKickPlayer_err_unchanged (st : ServerState) (s rid target : String) :
    ((handleKickPlayer st s rid target).2.1).isErr = true →
      (handleKickPlayer st s rid target).1 = st := by
  rw [handleKickPlayer]
  split
  · intro _
    rfl
  · split
    · intro _
      rfl
    · split
      · intro _
        rfl
      · split
        · intro _
          rfl
        · split
          · intro _
            rfl
          · split
            · intro _
              rfl
            · intro h
              simp [KickResult.isErr] at h

/-- Claim C10: whenever a `join-room`, `toggle-ready`, `start-game` or
`kick-player` request returns a failure result, the room store and the
connection registry are exactly as before the request — every validation
check precedes every mutation, so errors are atomic. -/
theorem c10_theorem (st : ServerState) (jd : JoinRoomData) (jp : String) (jn : Nat)
    (ts tr ss sr ks kr kt : String) :
    (((handleJoinRoom st jd jp jn).2.1).isErr = true →
      (handleJoinRoom st jd jp jn).1 = st) ∧
    (((handleToggleReady st ts tr).2.1).isErr = true →
      (handleToggleReady st ts tr).1 = st) ∧
    (((handleStartGame st ss sr).2.1).isErr = true →
      (handleStartGame st ss sr).1 = st) ∧
    (((handleKickPlayer st ks kr kt).2.1).isErr = true →
      (handleKickPlayer st ks kr kt).1 = st) := by
  refine ⟨?_, handleToggleReady_err_unchanged st ts tr,
    handleStartGame_err_unchanged st ss sr,
    handleKickPlayer_err_unchanged st ks kr kt⟩
  intro h
  have h1 : (handleJoinRoom st jd jp jn).1 = (joinRoom st jd jp jn).1 ∧
      (handleJoinRoom st jd jp jn).2.1 = (joinRoom st jd jp jn).2 := by
    rw [handleJoinRoom]
    rcases hj : joinRoom st jd jp jn with ⟨st2, res⟩
    cases res
    · exact ⟨rfl, rfl⟩
    · exact ⟨rfl, rfl⟩
  rw [h1.1]
  apply joinRoom_err_unchanged
  rw [← h1.2]
  exact h

/-- Witness for `c10_theorem`: on the initial empty state all four requests
fail, and each leaves the state untouched. -/
theorem c10_witness :
    ((handleJoinRoom ServerState.initial pwJoinData idP2 0).2.1).isErr = true ∧
    (handleJoinRoom ServerState.initial pwJoinData idP2 0).1 = ServerState.initial ∧
    ((handleToggleReady ServerState.initial idS1 idR1).2.1).isErr = true ∧
    (handleToggleReady ServerState.initial idS1 idR1).1 = ServerState.initial ∧
    ((handleStartGame ServerState.initial idS1 idR1).2.1).isErr = true ∧
    (handleStartGame ServerState.initial idS1 idR1).1 = ServerState.initial ∧
    ((handleKickPlayer ServerState.initial idS1 idR1 idP2).2.1).isErr = true ∧
    (handleKickPlayer ServerState.initial idS1 idR1 idP2).1 = ServerState.initial := by
  have h := c10_theorem ServerState.initial pwJoinData idP2 0 idS1 idR1 idS1 idR1
    idS1 idR1 idP2
  exact ⟨by decide, h.1 (by decide), by decide, h.2.1 (by decide), by decide,
    h.2.2.1 (by decide), by decide, h.2.2.2 (by decide)⟩

/-! ### Claim C3: operation sequences and room invariants -/

/-- One lifecycle operation of the claim, with the server-generated
identifiers carried as data. -/
inductive Op
  | create (data : CreateRoomData) (roomId playerId : String) (now : Nat)
  | join (data : JoinRoomData) (playerId : String) (now : Nat)
  | leave (socketId : String)
  | kick (socketId roomId targetPlayerId : String)
deriving Repr, DecidableEq

def applyOp (st : ServerState) : Op → ServerState
  | .create data roomId playerId now => (createRoom st data roomId playerId now).1
  | .join data playerId now => (joinRoom st data playerId now).1
  | .leave s => (leaveRoom st s).1
  | .kick s rid t => (handleKickPlayer st s rid t).1

def applyOps (ops : List Op) : ServerState :=
  ops.foldl applyOp ServerState.initial

/-- Freshness of the server-generated identifiers assumed by the code: a
generated room code does not collide with a stored room, and a join's
generated player id and joining socket are not already present in the target
room.  `leave` and `kick` have no side condition. -/
def legalOpB (st : ServerState) : Op → Bool
  | .create _ roomId _ _ => (mapGet st.rooms roomId).isNone
  | .join data playerId _ =>
    match mapGet st.rooms data.roomId with
    | none => true
    | some r => r.players.all (fun p => p.id != playerId && p.socketId != data.socketId)
  | .leave _ => true
  | .kick _ _ _ => true

def legalSeqB : ServerState → List Op → Bool
  | _, [] => true
  | st, op :: rest => legalOpB st op && legalSeqB (applyOp st op) rest

def cDataA : CreateRoomData :=
  { name := roomNameLobby, hostName := nameA, maxPlayers := 4, password := none,
    socketId := idS1 }

def jDataB : JoinRoomData :=
  { roomId := idR1, playerName := nameB, password := none, socketId := idS2 }

def jDataA2 : JoinRoomData :=
  { roomId := idR1, playerName := nameC, password := none, socketId := idS1 }

/-- The sequence refuting the claim: socket `s1` creates the room, `s2`
joins, then `s1` joins a second time (nothing stops a bound socket from
joining again), then `s1` leaves — the leave filters out *both* of `s1`'s
players but decrements `currentPlayers` once. -/
def badOps : List Op :=
  [.create cDataA idR1 idP1 0, .join jDataB idP2 1, .join jDataA2 idP3 2,
   .leave idS1]

/-- Claim C3 as stated is false: after the concrete create/join/join/leave
sequence `badOps` on room `ROOM01`, the room holds one player but
`currentPlayers = 2`, and no player in it is a host (the host check compared
against the overwritten binding), so both invariant parts fail. -/
theorem c3_counterexample :
    ((mapGet (applyOps badOps).rooms idR1).map
      (fun r => r.currentPlayers != (r.players.length : Int))) = some true ∧
    ((mapGet (applyOps badOps).rooms idR1).map
      (fun r => r.players.length != 0)) = some true ∧
    ((mapGet (applyOps badOps).rooms idR1).map
      (fun r => r.players.any (fun p => p.isHost))) = some false := by decide

/-- Internal coherence of one stored room: its id matches its key, the
counter equals the number of players, the room is non-empty, player ids and
socket ids are duplicate-free, and exactly the player whose id equals
`hostId` is flagged host. -/
def WFRoom (rid : String) (r : Room) : Prop :=
  r.id = rid ∧
  r.currentPlayers = (r.players.length : Int) ∧
  r.players ≠ [] ∧
  (r.players.map RoomPlayer.id).Nodup ∧
  (r.players.map RoomPlayer.socketId).Nodup ∧
  (∃ h ∈ r.players, h.id = r.hostId) ∧
  (∀ p ∈ r.players, p.isHost = true ↔ p.id = r.hostId)

/-- Coherence of one registry binding: its room exists and contains a player
carrying the bound socket and player id. -/
def WFBinding (rooms : AssocMap Room) (s : String) (b : Binding) : Prop :=
  ∃ r, mapGet rooms b.roomId = some r ∧
    ∃ p ∈ r.players, p.socketId = s ∧ p.id = b.playerId

def WF (st : ServerState) : Prop :=
  (∀ rid r, mapGet st.rooms rid = some r → WFRoom rid r) ∧
  (∀ s b, mapGet st.players s = some b → WFBinding st.rooms s b)

theorem WF_initial : WF ServerState.initial := by
  constructor
  · intro rid r h
    simp [ServerState.initial, mapGet] at h
  · intro s b h
    simp [ServerState.initial, mapGet] at h

/-- Removing the unique element carrying key `k` shortens the list by one. -/
theorem length_filter_key_unique (key : RoomPlayer → String) {l : List RoomPlayer}
    (hnd : (l.map key).Nodup) {x : RoomPlayer} (hx : x ∈ l) {k : String}
    (hk : key x = k) :
    (l.filter (fun p => key p != k)).length + 1 = l.length := by
  induction l with
  | nil => simp at hx
  | cons a t ih =>
    simp only [List.map_cons, List.nodup_cons] at hnd
    rcases List.mem_cons.mp hx with rfl | hxt
    · have hfa : (key x != k) = false := by simp [hk]
      rw [List.filter_cons_of_neg (by simp [hfa])]
      have hall : ∀ p ∈ t, (key p != k) = true := by
        intro p hp
        refine bne_iff_ne.mpr ?_
        intro hc
        exact hnd.1 (hk ▸ hc ▸ List.mem_map_of_mem key hp)
      rw [List.filter_eq_self.mpr hall]
      simp
    · have hka : key a ≠ k := by
        intro hc
        exact hnd.1 (hc ▸ hk ▸ List.mem_map_of_mem key hxt)
      rw [List.filter_cons_of_pos (by exact bne_iff_ne.mpr hka)]
      simp only [List.length_cons]
      rw [ih hnd.2 hxt]

/-- With duplicate-free player ids, a present host id and the host-flag
coherence, exactly one player is flagged host. -/
theorem countP_isHost_eq_one {r : Room}
    (hnd : (r.players.map RoomPlayer.id).Nodup)
    (hex : ∃ h ∈ r.players, h.id = r.hostId)
    (hiff : ∀ p ∈ r.players, p.isHost = true ↔ p.id = r.hostId) :
    r.players.countP (fun p => p.isHost) = 1 := by
  have hcongr : r.players.countP (fun p => p.isHost) =
      r.players.countP (fun p => p.id == r.hostId) := by
    refine List.countP_congr ?_
    intro p hp
    rw [beq_iff_eq]
    exact hiff p hp
  rcases hex with ⟨h0, hmem, hid⟩
  have hmem2 : r.hostId ∈ r.players.map RoomPlayer.id :=
    hid ▸ List.mem_map_of_mem RoomPlayer.id hmem
  have hcount : (r.players.map RoomPlayer.id).count r.hostId = 1 :=
    List.count_eq_one_of_mem hnd hmem2
  rw [List.count_eq_countP, List.countP_map] at hcount
  rw [hcongr, ← hcount]
  rfl

theorem wf_create (st : ServerState) (data : CreateRoomData)
    (roomId playerId : String) (now : Nat) (hwf : WF st)
    (hfresh : mapGet st.rooms roomId = none) :
    WF (createRoom st data roomId playerId now).1 := by
  rw [createRoom]
  constructor
  · intro rid r hr
    by_cases he : rid = roomId
    · subst he
      rw [mapGet_mapSet_self] at hr
      obtain rfl : _ = r := Option.some_inj.mp hr
      simp [WFRoom]
    · rw [mapGet_mapSet_ne _ _ _ _ he] at hr
      exact hwf.1 rid r hr
  · intro s b hb
    by_cases he : s = data.socketId
    · subst he
      rw [mapGet_mapSet_self] at hb
      obtain rfl : _ = b := Option.some_inj.mp hb
      refine ⟨_, mapGet_mapSet_self _ _ _, ?_⟩
      simp
    · rw [mapGet_mapSet_ne _ _ _ _ he] at hb
      obtain ⟨r0, hr0, p0, hp0, hps, hpid⟩ := hwf.2 s b hb
      have hne : b.roomId ≠ roomId := by
        intro hc
        rw [hc, hfresh] at hr0
        exact absurd hr0 (by simp)
      exact ⟨r0, by rw [mapGet_mapSet_ne _ _ _ _ hne]; exact hr0, p0, hp0, hps, hpid⟩

theorem wf_join (st : ServerState) (data : JoinRoomData) (playerId : String)
    (now : Nat) (hwf : WF st)
    (hlegal : legalOpB st (.join data playerId now) = true) :
    WF (joinRoom st data playerId now).1 := by
  rcases hm : mapGet st.rooms data.roomId with _ | room
  · rw [joinRoom]
    simp only [hm]
    exact hwf
  · rw [joinRoom]
    simp only [hm]
    by_cases h1 : room.currentPlayers ≥ room.maxPlayers
    · rw [if_pos h1]
      exact hwf
    · rw [if_neg h1]
      by_cases h2 : (room.hasPassword && room.password != data.password) = true
      · rw [if_pos h2]
        exact hwf
      · rw [if_neg h2]
        by_cases h3 : room.gameInProgress = true
        · rw [if_pos h3]
          exact hwf
        · rw [if_neg h3]
          have hfresh : ∀ p ∈ room.players,
              p.id ≠ playerId ∧ p.socketId ≠ data.socketId := by
            rw [legalOpB] at hlegal
            simp only [hm, List.all_eq_true, Bool.and_eq_true, bne_iff_ne] at hlegal
            exact hlegal
          obtain ⟨hid, hcnt, hne, hndid, hndsk, ⟨h0, hh0, hh0id⟩, hiff⟩ :=
            hwf.1 data.roomId room hm
          have hhostne : room.hostId ≠ playerId :=
            fun hc => (hfresh h0 hh0).1 (hh0id.trans hc)
          refine ⟨?_, ?_⟩
          · intro rid r hr
            by_cases he : rid = data.roomId
            · subst he
              rw [mapGet_mapSet_self] at hr
              obtain rfl : _ = r := Option.some_inj.mp hr
              refine ⟨hid, ?_, by simp, ?_, ?_,
                ⟨h0, List.mem_append_left _ hh0, hh0id⟩, ?_⟩
              · show room.currentPlayers + 1 = _
                rw [hcnt]
                simp only [List.length_append, List.length_cons, List.length_nil]
                push_cast
                ring
              · show (List.map RoomPlayer.id _).Nodup
                rw [List.map_append, List.nodup_append]
                refine ⟨hndid, by simp, ?_⟩
                intro a ha hb
                simp only [List.map_cons, List.map_nil, List.mem_singleton] at hb
                rcases List.mem_map.mp ha with ⟨p, hp, rfl⟩
                exact (hfresh p hp).1 hb
              · show (List.map RoomPlayer.socketId _).Nodup
                rw [List.map_append, List.nodup_append]
                refine ⟨hndsk, by simp, ?_⟩
                intro a ha hb
                simp only [List.map_cons, List.map_nil, List.mem_singleton] at hb
                rcases List.mem_map.mp ha with ⟨p, hp, rfl⟩
                exact (hfresh p hp).2 hb
              · intro p hp
                rcases List.mem_append.mp hp with hp | hp
                · exact hiff p hp
                · simp only [List.mem_singleton] at hp
                  subst hp
                  show false = true ↔ playerId = room.hostId
                  simp only [Bool.false_eq_true, false_iff]
                  exact fun hc => hhostne hc.symm
            · rw [mapGet_mapSet_ne _ _ _ _ he] at hr
              exact hwf.1 rid r hr
          · intro s b hb
            by_cases he : s = data.socketId
            · subst he
              rw [mapGet_mapSet_self] at hb
              obtain rfl : _ = b := Option.some_inj.mp hb
              refine ⟨_, mapGet_mapSet_self _ _ _, ?_⟩
              refine ⟨{ id := playerId, name := data.playerName,
                        socketId := data.socketId, isHost := false,
                        isReady := false, joinedAt := now },
                List.mem_append_right _ (List.mem_singleton_self _), rfl, rfl⟩
            · rw [mapGet_mapSet_ne _ _ _ _ he] at hb
              obtain ⟨r0, hr0, p0, hp0, hps, hpid⟩ := hwf.2 s b hb
              by_cases hbr : b.roomId = data.roomId
              · rw [hbr, hm] at hr0
                obtain rfl : _ = r0 := Option.some_inj.mp hr0
                refine ⟨_, by rw [hbr]; exact mapGet_mapSet_self _ _ _,
                  p0, List.mem_append_left _ hp0, hps, hpid⟩
              · exact ⟨r0, by rw [mapGet_mapSet_ne _ _ _ _ hbr]; exact hr0,
                  p0, hp0, hps, hpid⟩

theorem wf_leave (st : ServerState) (s : String) (hwf : WF st) :
    WF (leaveRoom st s).1 := by
  rcases hb : mapGet st.players s with _ | pi
  · rw [leaveRoom]
    simp only [hb]
    exact hwf
  · rcases hr : mapGet st.rooms pi.roomId with _ | room
    · rw [leaveRoom]
      simp only [hb, hr]
      exact hwf
    · obtain ⟨r0, hr0, p0, hp0, hp0s, hp0id⟩ := hwf.2 s pi hb
      rw [hr] at hr0
      obtain rfl : room = r0 := Option.some_inj.mp hr0
      obtain ⟨hid, hcnt, hne0, hndid, hndsk, ⟨h0, hh0, hh0id⟩, hiff⟩ :=
        hwf.1 pi.roomId room hr
      rw [leaveRoom]
      simp only [hb, hr]
      rcases hf : room.players.filter (fun p => p.socketId != s) with _ | ⟨nh, rest⟩
      · simp only [hf]
        refine ⟨?_, ?_⟩
        · intro rid r hr2
          obtain ⟨hne2, hold⟩ := mapGet_mapDelete_eq_some hr2
          exact hwf.1 rid r hold
        · intro s2 b2 hb2
          obtain ⟨hs2, hold⟩ := mapGet_mapDelete_eq_some hb2
          obtain ⟨r2, hr2, p2, hp2, hp2s, hp2id⟩ := hwf.2 s2 b2 hold
          have hbr : b2.roomId ≠ pi.roomId := by
            intro hc
            rw [hc, hr] at hr2
            obtain rfl : room = r2 := Option.some_inj.mp hr2
            have hmem : p2 ∈ room.players.filter (fun p => p.socketId != s) :=
              List.mem_filter.mpr ⟨hp2, bne_iff_ne.mpr (by rw [hp2s]; exact hs2)⟩
            rw [hf] at hmem
            simp at hmem
          exact ⟨r2, by rw [mapGet_mapDelete_ne _ _ _ hbr]; exact hr2,
            p2, hp2, hp2s, hp2id⟩
      · simp only [hf]
        have hlen : (room.players.filter (fun p => p.socketId != s)).length + 1 =
            room.players.length :=
          length_filter_key_unique RoomPlayer.socketId hndsk hp0 hp0s
        have h4 : (nh :: rest).length + 1 = room.players.length := by
          rw [← hf]
          exact hlen
        have hcnt2 : room.currentPlayers - 1 = (((nh :: rest).length : Nat) : Int) := by
          rw [hcnt, ← h4]
          push_cast
          ring
        have hmemrest : ∀ p ∈ nh :: rest, p ∈ room.players ∧ p.socketId ≠ s := by
          intro p hp
          have hmem : p ∈ room.players.filter (fun p => p.socketId != s) := by
            rw [hf]
            exact hp
          exact ⟨(List.mem_filter.mp hmem).1, bne_iff_ne.mp (List.mem_filter.mp hmem).2⟩
        have hsub : (nh :: rest).Sublist room.players := by
          rw [← hf]
          exact List.filter_sublist _
        have hndrem_id : ((nh :: rest).map RoomPlayer.id).Nodup :=
          List.Nodup.sublist (hsub.map RoomPlayer.id) hndid
        have hndrem_sk : ((nh :: rest).map RoomPlayer.socketId).Nodup :=
          List.Nodup.sublist (hsub.map RoomPlayer.socketId) hndsk
        by_cases hh : (room.hostId == pi.playerId) = true
        · rw [if_pos hh]
          have hhid : room.hostId = pi.playerId := beq_iff_eq.mp hh
          have hinj := List.inj_on_of_nodup_map hndid
          have h0p0 : h0 = p0 := hinj hh0 hp0 (by rw [hh0id, hp0id, hhid])
          refine ⟨?_, ?_⟩
          · intro rid r hr2
            by_cases he : rid = pi.roomId
            · subst he
              rw [mapGet_mapSet_self] at hr2
              obtain rfl : _ = r := Option.some_inj.mp hr2
              refine ⟨hid, by simpa using hcnt2, by simp, by simpa using hndrem_id,
                by simpa using hndrem_sk, ⟨_, List.mem_cons_self _ _, rfl⟩, ?_⟩
              intro p hp
              rcases List.mem_cons.mp hp with rfl | hp2
              · simp
              · have hpmem := hmemrest p (List.mem_cons_of_mem _ hp2)
                have hpid_ne : p.id ≠ nh.id := by
                  intro hc
                  have hnd2 := hndrem_id
                  rw [List.map_cons] at hnd2
                  rcases List.nodup_cons.mp hnd2 with ⟨hnin, _⟩
                  exact hnin (hc ▸ List.mem_map_of_mem RoomPlayer.id hp2)
                have hphost : p.isHost = false := by
                  by_cases hcase : p.id = room.hostId
                  · have hph0 : p = h0 := hinj hpmem.1 hh0 (by rw [hcase, hh0id])
                    rw [hph0, h0p0] at hpmem
                    exact absurd hp0s hpmem.2
                  · rcases hph : p.isHost with _ | _
                    · rfl
                    · exact absurd ((hiff p hpmem.1).mp hph) hcase
                show p.isHost = true ↔ p.id = nh.id
                rw [hphost]
                simp only [Bool.false_eq_true, false_iff]
                exact hpid_ne
            · rw [mapGet_mapSet_ne _ _ _ _ he] at hr2
              exact hwf.1 rid r hr2
          · intro s2 b2 hb2
            obtain ⟨hs2, hold⟩ := mapGet_mapDelete_eq_some hb2
            obtain ⟨r2, hr2, p2, hp2, hp2s, hp2id⟩ := hwf.2 s2 b2 hold
            by_cases hbr : b2.roomId = pi.roomId
            · rw [hbr, hr] at hr2
              obtain rfl : room = r2 := Option.some_inj.mp hr2
              have hp2f : p2 ∈ nh :: rest := by
                rw [← hf]
                exact List.mem_filter.mpr ⟨hp2, bne_iff_ne.mpr (by rw [hp2s]; exact hs2)⟩
              refine ⟨_, by rw [hbr]; exact mapGet_mapSet_self _ _ _, ?_⟩
              rcases List.mem_cons.mp hp2f with rfl | hp2r
              · exact ⟨{ p2 with isHost := true }, List.mem_cons_self _ _, hp2s, hp2id⟩
              · exact ⟨p2, List.mem_cons_of_mem _ hp2r, hp2s, hp2id⟩
            · exact ⟨r2, by rw [mapGet_mapSet_ne _ _ _ _ hbr]; exact hr2,
                p2, hp2, hp2s, hp2id⟩
        · rw [if_neg hh]
          have hhid : room.hostId ≠ pi.playerId := by simpa using hh
          refine ⟨?_, ?_⟩
          · intro rid r hr2
            by_cases he : rid = pi.roomId
            · subst he
              rw [mapGet_mapSet_self] at hr2
              obtain rfl : _ = r := Option.some_inj.mp hr2
              refine ⟨hid, by simpa using hcnt2, by simp, hndrem_id, hndrem_sk, ?_, ?_⟩
              · have hh0s : h0.socketId ≠ s := by
                  intro hc
                  have hh0p0 : h0 = p0 :=
                    List.inj_on_of_nodup_map hndsk hh0 hp0 (by rw [hc, hp0s])
                  exact hhid (by rw [← hh0id, hh0p0, hp0id])
                have hh0mem : h0 ∈ nh :: rest := by
                  rw [← hf]
                  exact List.mem_filter.mpr ⟨hh0, bne_iff_ne.mpr hh0s⟩
                exact ⟨h0, hh0mem, hh0id⟩
              · intro p hp
                exact hiff p (hmemrest p hp).1
            · rw [mapGet_mapSet_ne _ _ _ _ he] at hr2
              exact hwf.1 rid r hr2
          · intro s2 b2 hb2
            obtain ⟨hs2, hold⟩ := mapGet_mapDelete_eq_some hb2
            obtain ⟨r2, hr2, p2, hp2, hp2s, hp2id⟩ := hwf.2 s2 b2 hold
            by_cases hbr : b2.roomId = pi.roomId
            · rw [hbr, hr] at hr2
              obtain rfl : room = r2 := Option.some_inj.mp hr2
              have hp2f : p2 ∈ nh :: rest := by
                rw [← hf]
                exact List.mem_filter.mpr ⟨hp2, bne_iff_ne.mpr (by rw [hp2s]; exact hs2)⟩
              exact ⟨_, by rw [hbr]; exact mapGet_mapSet_self _ _ _,
                p2, hp2f, hp2s, hp2id⟩
            · exact ⟨r2, by rw [mapGet_mapSet_ne _ _ _ _ hbr]; exact hr2,
                p2, hp2, hp2s, hp2id⟩

theorem wf_kick (st : ServerState) (s rid target : String) (hwf : WF st) :
    WF (handleKickPlayer st s rid target).1 := by
  rcases hb : mapGet st.players s with _ | pi
  · rw [handleKickPlayer]
    simp only [hb]
    exact hwf
  · rw [handleKickPlayer]
    simp only [hb]
    by_cases hmr : (pi.roomId != rid) = true
    · rw [if_pos hmr]
      exact hwf
    · rw [if_neg hmr]
      rcases hr : mapGet st.rooms pi.roomId with _ | room
      · simp only [hr]
        exact hwf
      · simp only [hr]
        by_cases hh : (room.hostId != pi.playerId) = true
        · rw [if_pos hh]
          exact hwf
        · rw [if_neg hh]
          rcases hfind : room.players.find? (fun p => p.id == target) with _ | t
          · simp only [hfind]
            exact hwf
          · simp only [hfind]
            by_cases hth : t.isHost = true
            · rw [if_pos hth]
              exact hwf
            · rw [if_neg hth]
              obtain ⟨hid, hcnt, hne0, hndid, hndsk, ⟨h0, hh0, hh0id⟩, hiff⟩ :=
                hwf.1 pi.roomId room hr
              have htmem : t ∈ room.players := List.mem_of_find?_eq_some hfind
              have htid : t.id = target := by
                have hq := List.find?_some hfind
                simpa using hq
              have hinj := List.inj_on_of_nodup_map hndid
              have hth2 : t.isHost = false := by
                revert hth
                cases t.isHost <;> simp
              have hhostne : room.hostId ≠ target := by
                intro hc
                have hidq : t.id = h0.id := by rw [htid, hh0id, hc]
                have ht0 : t = h0 := hinj htmem hh0 hidq
                have hh0host : h0.isHost = true := (hiff h0 hh0).mpr hh0id
                rw [← ht0, hth2] at hh0host
                exact Bool.false_ne_true hh0host
              have hh0ne : h0.id ≠ target := by
                rw [hh0id]
                exact hhostne
              have hh0f : h0 ∈ room.players.filter (fun p => p.id != target) :=
                List.mem_filter.mpr ⟨hh0, bne_iff_ne.mpr hh0ne⟩
              have hlenk : (room.players.filter (fun p => p.id != target)).length + 1 =
                  room.players.length :=
                length_filter_key_unique RoomPlayer.id hndid htmem htid
              have hsub : (room.players.filter (fun p => p.id != target)).Sublist
                  room.players := List.filter_sublist _
              refine ⟨?_, ?_⟩
              · intro rid2 r hr2
                by_cases he : rid2 = pi.roomId
                · subst he
                  rw [mapGet_mapSet_self] at hr2
                  obtain rfl : _ = r := Option.some_inj.mp hr2
                  refine ⟨hid, ?_, List.ne_nil_of_mem hh0f,
                    List.Nodup.sublist (hsub.map _) hndid,
                    List.Nodup.sublist (hsub.map _) hndsk,
                    ⟨h0, hh0f, hh0id⟩, ?_⟩
                  · show room.currentPlayers - 1 = _
                    rw [hcnt, ← hlenk]
                    push_cast
                    ring
                  · intro p hp
                    exact hiff p (List.mem_filter.mp hp).1
                · rw [mapGet_mapSet_ne _ _ _ _ he] at hr2
                  exact hwf.1 rid2 r hr2
              · intro s2 b2 hb2
                obtain ⟨hs2, hold⟩ := mapGet_mapDelete_eq_some hb2
                obtain ⟨r2, hr2, p2, hp2, hp2s, hp2id⟩ := hwf.2 s2 b2 hold
                by_cases hbr : b2.roomId = pi.roomId
                · rw [hbr, hr] at hr2
                  obtain rfl : room = r2 := Option.some_inj.mp hr2
                  have hp2ne : p2.id ≠ target := by
                    intro hc
                    have hp2t : p2 = t := hinj hp2 htmem (by rw [hc, htid])
                    rw [hp2t] at hp2s
                    exact hs2 hp2s.symm
                  have hp2f : p2 ∈ room.players.filter (fun p => p.id != target) :=
                    List.mem_filter.mpr ⟨hp2, bne_iff_ne.mpr hp2ne⟩
                  exact ⟨_, by rw [hbr]; exact mapGet_mapSet_self _ _ _,
                    p2, hp2f, hp2s, hp2id⟩
                · exact ⟨r2, by rw [mapGet_mapSet_ne _ _ _ _ hbr]; exact hr2,
                    p2, hp2, hp2s, hp2id⟩

theorem wf_step (st : ServerState) (op : Op) (hwf : WF st)
    (hlegal : legalOpB st op = true) : WF (applyOp st op) := by
  cases op with
  | create data roomId playerId now =>
    refine wf_create st data roomId playerId now hwf ?_
    exact Option.isNone_iff_eq_none.mp hlegal
  | join data playerId now => exact wf_join st data playerId now hwf hlegal
  | leave s => exact wf_leave st s hwf
  | kick s rid t => exact wf_kick st s rid t hwf

theorem wf_foldl (ops : List Op) : ∀ st, WF st → legalSeqB st ops = true →
    WF (ops.foldl applyOp st) := by
  induction ops with
  | nil =>
    intro st hwf _
    simpa using hwf
  | cons op rest ih =>
    intro st hwf hlegal
    simp only [legalSeqB, Bool.and_eq_true] at hlegal
    exact ih (applyOp st op) (wf_step st op hwf hlegal.1) hlegal.2

/-- Claim C3 amended: for every sequence of create/join/leave/kick operations
from the empty initial state in which the server-generated identifiers are
fresh (`legalSeqB`: a generated room code is not already stored, and a join's
generated player id and socket are not already present in the target room —
the assumptions the unchecked code relies on, violated in
`c3_counterexample`), every stored room satisfies
`currentPlayers = players.length`, and whenever `players` is non-empty
exactly one player is flagged host and `hostId` is that player's id.  Since a
legal prefix of a legal sequence is legal, this holds after each operation. -/
theorem c3_theorem (ops : List Op)
    (hlegal : legalSeqB ServerState.initial ops = true) :
    ∀ rid r, mapGet (applyOps ops).rooms rid = some r →
      r.currentPlayers = (r.players.length : Int) ∧
      (r.players ≠ [] →
        r.players.countP (fun p => p.isHost) = 1 ∧
        ∀ p ∈ r.players, p.isHost = true → r.hostId = p.id) := by
  intro rid r hr
  have hwf := wf_foldl ops ServerState.initial WF_initial hlegal
  obtain ⟨hid, hcnt, hne, hndid, hndsk, hex, hiff⟩ := hwf.1 rid r hr
  refine ⟨hcnt, fun _ => ⟨countP_isHost_eq_one hndid hex hiff, ?_⟩⟩
  intro p hp hph
  exact ((hiff p hp).mp hph).symm

def goodOps : List Op :=
  [.create cDataA idR1 idP1 0, .join jDataB idP2 1]

def goodRoom : Room :=
  { id := idR1, name := roomNameLobby, hostId := idP1, hostName := nameA,
    maxPlayers := 4, currentPlayers := 2, hasPassword := false, password := none,
    players := [{ id := idP1, name := nameA, socketId := idS1, isHost := true,
                  isReady := true, joinedAt := 0 },
                { id := idP2, name := nameB, socketId := idS2, isHost := false,
                  isReady := false, joinedAt := 1 }],
    status := statusWaiting, createdAt := 0, gameInProgress := false,
    gameState := none }

/-- Witness for `c3_theorem`: the legal create-then-join sequence `goodOps`
produces room `ROOM01` with matching counter and a unique host. -/
theorem c3_witness :
    legalSeqB ServerState.initial goodOps = true ∧
    mapGet (applyOps goodOps).rooms idR1 = some goodRoom ∧
    (goodRoom.currentPlayers = (goodRoom.players.length : Int) ∧
      (goodRoom.players ≠ [] →
        goodRoom.players.countP (fun p => p.isHost) = 1 ∧
        ∀ p ∈ goodRoom.players, p.isHost = true → goodRoom.hostId = p.id)) :=
  ⟨by decide, by decide, c3_theorem goodOps (by decide) idR1 goodRoom (by decide)⟩
